import Mathlib

/-!
Shallow embedding of the BEEFY voter worker (`client/beefy/src/worker.rs`).

Block numbers (`NumberFor<B>`) are modelled as `Nat`; the generic bound
`AtLeast32Bit` admits`u64`/`u128`, so block-number arithmetic itself is
unbounded, while the explicit `saturated_into::<u32>()` cast in `vote_target`
is modelled by clamping at `2^32 - 1`.  Rust's `saturating_sub` on
non-negative integers is exactly `Nat` subtraction.
-/

/-- `u32::MAX`, the saturation bound of `saturated_into::<u32>()`. -/
def u32max : ℕ := 4294967295

/-- Fuel-driven loop computing the least power of two that is `≥ n`;
this is Rust's `u32::next_power_of_two` for arguments below `2^31`
(the only range it is applied to in `vote_target`, where the argument is
at most `u32::MAX / 2`), extended to all of `ℕ`. -/
def nextPow2Go (n : ℕ) : ℕ → ℕ → ℕ
  | 0, p => p
  | fuel + 1, p => if n ≤ p then p else nextPow2Go n fuel (2 * p)

/-- Least power of two `≥ n` (with `nextPow2 0 = 1`, as in Rust). -/
def nextPow2 (n : ℕ) : ℕ := nextPow2Go n n 1

theorem nextPow2Go_pos (n : ℕ) : ∀ (fuel p : ℕ), 1 ≤ p → 1 ≤ nextPow2Go n fuel p := by
  intro fuel
  induction fuel with
  | zero => intro p hp; simpa [nextPow2Go] using hp
  | succ k ih =>
      intro p hp
      rw [nextPow2Go]
      split
      · exact hp
      · exact ih (2 * p) (by omega)

theorem nextPow2_pos (n : ℕ) : 1 ≤ nextPow2 n :=
  nextPow2Go_pos n n 1 (le_refl 1)

/-- `vote_target` from `worker.rs` (lines 838–890): compute the next block
number to vote on.  The saturating subtraction is `Nat` subtraction, and
`diff.saturated_into::<u32>()` is `min diff u32max`. -/
def vote_target (best_grandpa : ℕ) (best_beefy : Option ℕ) (session_start : ℕ)
    (min_delta : ℕ) : Option ℕ :=
  let target :=
    match best_beefy with
    | none => session_start
    | some bbb =>
      if bbb < session_start then
        session_start
      else
        let diff := best_grandpa - bbb + 1
        let diff := min diff u32max / 2
        bbb + max min_delta (nextPow2 diff)
  -- Don't vote for targets until they've been finalized.
  if best_grandpa < target then none else some target

/-- Authority public keys, signatures, and hashes are opaque to the worker
logic under study; model them as `ℕ`. -/
abbrev AuthorityId : Type := ℕ

/-- `ValidatorSet`: ordered list of authorities plus a set id. -/
structure ValidatorSet where
  validators : List AuthorityId
  id : ℕ
deriving DecidableEq, Repr

/-- Modelled from the spec: the `Rounds` session structure lives in
`round.rs`, which is not part of this excerpt; per spec §3 a session
carries `session_start` (the mandatory block), its validator set and a
`mandatory_done` flag, and is created with `mandatory_done = false`.
Only these accessors are used by the oracle code under study. -/
structure Rounds where
  session_start : ℕ
  validator_set : ValidatorSet
  mandatory_done : Bool
deriving DecidableEq, Repr

/-- Modelled from the spec: `Rounds::new(session_start, validator_set)`
starts a session with `mandatory_done = false`. -/
def Rounds.new (session_start : ℕ) (validator_set : ValidatorSet) : Rounds :=
  { session_start := session_start, validator_set := validator_set, mandatory_done := false }

/-- The error kinds of `error.rs` reachable from the code under study. -/
inductive Error where
  | UninitSession : Error
  | Backend : String → Error
  | Keystore : String → Error
deriving DecidableEq, Repr

/-- `RoundAction` from `worker.rs`. -/
inductive RoundAction where
  | Drop : RoundAction
  | Process : RoundAction
  | Enqueue : RoundAction
deriving DecidableEq, Repr

/-- `VoterOracle`: queue of known sessions plus the min block delta. -/
structure VoterOracle where
  sessions : List Rounds
  min_block_delta : ℕ
deriving DecidableEq, Repr

/-- `VoterOracle::new`: empty queue, delta at least 1. -/
def VoterOracle.new (min_block_delta : ℕ) : VoterOracle :=
  { sessions := [], min_block_delta := max min_block_delta 1 }

/-- `VoterOracle::try_prune`: when there are multiple sessions, keep only
those with `mandatory_done == false`. -/
def VoterOracle.try_prune (o : VoterOracle) : VoterOracle :=
  if 1 < o.sessions.length then
    { o with sessions := o.sessions.filter (fun s => !s.mandatory_done) }
  else o

/-- `VoterOracle::add_session`: push to the back of the queue, then prune. -/
def VoterOracle.add_session (o : VoterOracle) (rounds : Rounds) : VoterOracle :=
  VoterOracle.try_prune { o with sessions := o.sessions ++ [rounds] }

/-- `VoterOracle::accepted_interval`: inclusive interval of votes to accept. -/
def VoterOracle.accepted_interval (o : VoterOracle) (best_grandpa : ℕ) :
    Except Error (ℕ × ℕ) :=
  match o.sessions.head? with
  | none => .error .UninitSession
  | some rounds =>
    if rounds.mandatory_done then
      .ok (rounds.session_start, best_grandpa)
    else
      .ok (rounds.session_start, rounds.session_start)

/-- `VoterOracle::triage_round`. -/
def VoterOracle.triage_round (o : VoterOracle) (round best_grandpa : ℕ) :
    Except Error RoundAction :=
  match o.accepted_interval best_grandpa with
  | .error e => .error e
  | .ok (start, stop) =>
    if start ≤ round ∧ round ≤ stop then .ok .Process
    else if stop < round then .ok .Enqueue
    else .ok .Drop

/-- `VoterOracle::voting_target`: delegate to `vote_target` for the head
session, `none` when no session is initialized. -/
def VoterOracle.voting_target (o : VoterOracle) (best_beefy : Option ℕ)
    (best_grandpa : ℕ) : Option ℕ :=
  match o.sessions.head? with
  | none => none
  | some rounds => vote_target best_grandpa best_beefy rounds.session_start o.min_block_delta

/-- The three legal queue shapes of the oracle (spec §3 / source doc comment):
uninitialized, up-to-date (one session, mandatory done), or lagging
(at least one session, none with mandatory done). -/
def legal_session_queue (l : List Rounds) : Prop :=
  l = [] ∨
  (l.length = 1 ∧ l.all (fun s => s.mandatory_done) = true) ∨
  (1 ≤ l.length ∧ l.all (fun s => !s.mandatory_done) = true)

instance (l : List Rounds) : Decidable (legal_session_queue l) := by
  unfold legal_session_queue; infer_instance

/-- Sessions ordered oldest-first by their mandatory block number. -/
def sessions_ordered (l : List Rounds) : Prop :=
  List.Pairwise (fun a b => a.session_start ≤ b.session_start) l

/-- The 4-byte BEEFY consensus engine id `*b"BEEF"`, as a numeral. -/
def BEEFY_ENGINE_ID : ℕ := 0x42454546

/-- `ConsensusLog<AuthorityId>` from `beefy_primitives`. -/
inductive ConsensusLog where
  | AuthoritiesChange : ValidatorSet → ConsensusLog
  | OnDisabled : ℕ → ConsensusLog
  | MmrRoot : ℕ → ConsensusLog
deriving DecidableEq, Repr

/-- A header digest item.  A `Consensus` entry carries its engine id and the
result of decoding its bytes as a `ConsensusLog` (`none` models bytes that
do not decode); all non-consensus items are collapsed into `OtherItem`. -/
inductive DigestItem where
  | Consensus : ℕ → Option ConsensusLog → DigestItem
  | OtherItem : DigestItem
deriving DecidableEq, Repr

/-- `l.try_to(OpaqueDigestItemId::Consensus(&BEEFY_ENGINE_ID))`: decode the
item as a BEEFY consensus log when the engine id matches. -/
def digest_try_to_beefy (item : DigestItem) : Option ConsensusLog :=
  match item with
  | .Consensus engine log => if engine = BEEFY_ENGINE_ID then log else none
  | .OtherItem => none

/-- `Digest::convert_first`: the first item on which `f` succeeds. -/
def convert_first {α : Type} (f : DigestItem → Option α) : List DigestItem → Option α
  | [] => none
  | item :: rest =>
    match f item with
    | some v => some v
    | none => convert_first f rest

/-- A block header: its number and digest (the only parts the worker reads). -/
structure Header where
  number : ℕ
  digest : List DigestItem
deriving DecidableEq, Repr

/-- The `filter` closure of `find_mmr_root_digest`. -/
def mmr_root_filter (log : ConsensusLog) : Option ℕ :=
  match log with
  | .MmrRoot root => some root
  | _ => none

/-- The `filter` closure of `find_authorities_change`. -/
def authorities_change_filter (log : ConsensusLog) : Option ValidatorSet :=
  match log with
  | .AuthoritiesChange validator_set => some validator_set
  | _ => none

/-- `find_mmr_root_digest` from `worker.rs` (lines 807–818). -/
def find_mmr_root_digest (header : Header) : Option ℕ :=
  convert_first (fun l => (digest_try_to_beefy l).bind mmr_root_filter) header.digest

/-- `find_authorities_change` from `worker.rs` (lines 822–833). -/
def find_authorities_change (header : Header) : Option ValidatorSet :=
  convert_first (fun l => (digest_try_to_beefy l).bind authorities_change_filter) header.digest

/-- `Commitment`: payload (opaque tagged bytes, modelled as tag/byte lists),
block number and validator set id. -/
structure Commitment where
  payload : List (ℕ × List ℕ)
  block_number : ℕ
  validator_set_id : ℕ
deriving DecidableEq, Repr

/-- `SignedCommitment`: commitment plus positional optional signatures. -/
structure SignedCommitment where
  commitment : Commitment
  signatures : List (Option ℕ)
deriving DecidableEq, Repr

/-- `VersionedFinalityProof` (aka `BeefyVersionedFinalityProof`). -/
inductive VersionedFinalityProof where
  | V1 : SignedCommitment → VersionedFinalityProof
deriving DecidableEq, Repr

/-- The block number committed to by a finality proof. -/
def VersionedFinalityProof.block_number (p : VersionedFinalityProof) : ℕ :=
  match p with
  | .V1 sc => sc.commitment.block_number

/-- `VoteMessage`: a commitment signed by one authority. -/
structure VoteMessage where
  commitment : Commitment
  id : AuthorityId
  signature : ℕ
deriving DecidableEq, Repr

/-- Rust's derived `Option` ordering, specialised to `>`:
`Some(_) > None`, and `Some(a) > Some(b)` iff `a > b`.
`finalize` tests `Some(block_num) > self.best_beefy_block`. -/
def optGt (a b : Option ℕ) : Bool :=
  match a, b with
  | some _, none => true
  | some x, some y => y < x
  | none, _ => false

/-- Rust's derived `Option` ordering, specialised to `≤`. -/
def optLe (a b : Option ℕ) : Bool :=
  match a, b with
  | none, _ => true
  | some _, none => false
  | some x, some y => x ≤ y

/-- The mutable state of `BeefyWorker` affected by the code under study;
external sinks (RPC best-block, RPC justification) and the on-demand
justification engine are modelled as traces of emitted values. -/
structure BeefyWorker where
  best_grandpa_block_header : Header
  best_beefy_block : Option ℕ
  pending_votes : List (ℕ × List VoteMessage)
  pending_justifications : List (ℕ × List VersionedFinalityProof)
  voting_oracle : VoterOracle
  to_rpc_best_block_sender : List ℕ
  to_rpc_justif_sender : List VersionedFinalityProof
  on_demand_requests : List ℕ
deriving DecidableEq, Repr

/-- `BeefyWorker::finalize` (lines 473–499): prune the oracle, then — iff the
proof is for a block newer than `best_beefy_block` — record the new best
block, emit its hash on the best-block sink (when the client knows the
hash), and emit the proof on the justification sink.  `clientHash` models
`self.client.hash(block_num)`. -/
def BeefyWorker.finalize (clientHash : ℕ → Option ℕ) (w : BeefyWorker)
    (finality_proof : VersionedFinalityProof) : BeefyWorker :=
  let w := { w with voting_oracle := w.voting_oracle.try_prune }
  let block_num := finality_proof.block_number
  if optGt (some block_num) w.best_beefy_block then
    let w := { w with best_beefy_block := some block_num }
    let w :=
      match clientHash block_num with
      | some hash => { w with to_rpc_best_block_sender := w.to_rpc_best_block_sender ++ [hash] }
      | none => w
    { w with to_rpc_justif_sender := w.to_rpc_justif_sender ++ [finality_proof] }
  else
    w

/-- `to_process_for` (nested fn of `try_pending_justif_and_votes`): split the
pending buffer — an ordered map modelled as a key-sorted association list —
at `end.saturating_add(1)` and at `start`; keys `> end` stay pending, keys in
`[start, end]` are returned for processing, the rest are dropped. -/
def to_process_for {α : Type} (pending : List (ℕ × List α)) (start stop : ℕ) :
    List (ℕ × List α) × List (ℕ × List α) :=
  let parts := pending.partition (fun e => stop + 1 ≤ e.1)
  let still_pending := parts.1
  let parts2 := parts.2.partition (fun e => start ≤ e.1)
  (parts2.1, still_pending)

/-- The justification pass of `try_pending_justif_and_votes`: skip when the
buffer is empty, else split it at the accepted interval, keep the future
part, and `finalize` each handled justification in ascending order. -/
def handle_pending_justifs (clientHash : ℕ → Option ℕ) (w : BeefyWorker)
    (interval : ℕ × ℕ) : BeefyWorker :=
  if w.pending_justifications.isEmpty then w
  else
    let parts := to_process_for w.pending_justifications interval.1 interval.2
    let w := { w with pending_justifications := parts.2 }
    parts.1.foldl (fun wa e => e.2.foldl (fun wb j => wb.finalize clientHash j) wa) w

/-- The vote pass of `try_pending_justif_and_votes`.  The per-vote handler
`handleVote` abstracts `BeefyWorker::handle_vote`, whose vote aggregation
lives in `round.rs`, outside this excerpt (its errors are logged and
swallowed by the loop). -/
def handle_pending_votes (handleVote : BeefyWorker → VoteMessage → BeefyWorker)
    (w : BeefyWorker) (interval : ℕ × ℕ) : BeefyWorker :=
  if w.pending_votes.isEmpty then w
  else
    let parts := to_process_for w.pending_votes interval.1 interval.2
    let w := { w with pending_votes := parts.2 }
    parts.1.foldl (fun wa e => e.2.foldl (fun wb v => handleVote wb v) wa) w

/-- `BeefyWorker::try_pending_justif_and_votes` (lines 502–551): handle
pending justifications for the current accepted interval, then re-read the
interval and handle pending votes. -/
def try_pending_justif_and_votes (clientHash : ℕ → Option ℕ)
    (handleVote : BeefyWorker → VoteMessage → BeefyWorker) (w : BeefyWorker) :
    Except Error BeefyWorker :=
  let best_grandpa := w.best_grandpa_block_header.number
  match w.voting_oracle.accepted_interval best_grandpa with
  | .error e => .error e
  | .ok interval =>
    let w := handle_pending_justifs clientHash w interval
    match w.voting_oracle.accepted_interval best_grandpa with
    | .error e => .error e
    | .ok interval2 => .ok (handle_pending_votes handleVote w interval2)

/-- `BeefyWorker::init_session_at` net state change: add the new session to
the oracle (logging, metrics and the best-effort keystore check do not
change worker state). -/
def BeefyWorker.init_session_at (w : BeefyWorker) (validator_set : ValidatorSet)
    (new_session_start : ℕ) : BeefyWorker :=
  { w with voting_oracle := w.voting_oracle.add_session (Rounds.new new_session_start validator_set) }

/-- `BeefyWorker::handle_finality_notification` (lines 362–378): for a header
strictly newer than the stored best, update the best header and — when the
header announces an authority-set change — start that session and fire an
on-demand justification request for the mandatory block. -/
def BeefyWorker.handle_finality_notification (w : BeefyWorker) (header : Header) :
    BeefyWorker :=
  if w.best_grandpa_block_header.number < header.number then
    let w := { w with best_grandpa_block_header := header }
    match find_authorities_change header with
    | some new_validator_set =>
      let w := w.init_session_at new_validator_set header.number
      { w with on_demand_requests := w.on_demand_requests ++ [header.number] }
    | none => w
  else
    w

deriving instance DecidableEq for Except

instance (l : List Rounds) : Decidable (sessions_ordered l) := by
  unfold sessions_ordered; infer_instance

/-! ### Concrete fixtures used to evaluate the model on sample inputs -/

/-- A trivial client hash lookup that knows no hashes. -/
def sample_client_hash : ℕ → Option ℕ := fun _ => none

/-- A vote handler that leaves the worker unchanged. -/
def sample_vote_handler : BeefyWorker → VoteMessage → BeefyWorker := fun w _ => w

/-- A finality proof for block `k` with empty payload and no signatures. -/
def sample_proof (k : ℕ) : VersionedFinalityProof :=
  .V1 { commitment := { payload := [], block_number := k, validator_set_id := 0 },
        signatures := [] }

/-- A vote for block `k` from authority 0. -/
def sample_vote (k : ℕ) : VoteMessage :=
  { commitment := { payload := [], block_number := k, validator_set_id := 0 },
    id := 0, signature := 0 }

/-- A worker at base finality 6, one mandatory-done session started at 3,
with pending votes at 2, 4, 8 and pending justifications at 1, 5, 9. -/
def sample_worker : BeefyWorker :=
  { best_grandpa_block_header := { number := 6, digest := [] },
    best_beefy_block := none,
    pending_votes := [(2, [sample_vote 2]), (4, [sample_vote 4]), (8, [sample_vote 8])],
    pending_justifications :=
      [(1, [sample_proof 1]), (5, [sample_proof 5]), (9, [sample_proof 9])],
    voting_oracle :=
      { sessions := [{ session_start := 3, validator_set := { validators := [], id := 0 },
                       mandatory_done := true }],
        min_block_delta := 1 },
    to_rpc_best_block_sender := [],
    to_rpc_justif_sender := [],
    on_demand_requests := [] }

/-- A validator set with one authority and id 42. -/
def sample_validator_set : ValidatorSet := { validators := [7], id := 42 }

/-- A header at number 5 announcing `sample_validator_set`. -/
def sample_change_header : Header :=
  { number := 5,
    digest := [DigestItem.Consensus BEEFY_ENGINE_ID
      (some (ConsensusLog.AuthoritiesChange sample_validator_set))] }

/-- A fresh worker at base finality 1 with an empty oracle. -/
def sample_fresh_worker : BeefyWorker :=
  { best_grandpa_block_header := { number := 1, digest := [] },
    best_beefy_block := none,
    pending_votes := [],
    pending_justifications := [],
    voting_oracle := { sessions := [], min_block_delta := 1 },
    to_rpc_best_block_sender := [],
    to_rpc_justif_sender := [],
    on_demand_requests := [] }

/-- A header whose digest has no decodable BEEFY entry: a non-consensus
item, a foreign-engine consensus item, and an undecodable BEEFY item. -/
def sample_plain_header : Header :=
  { number := 1,
    digest := [DigestItem.OtherItem,
      DigestItem.Consensus 7 (some (ConsensusLog.MmrRoot 5)),
      DigestItem.Consensus BEEFY_ENGINE_ID none] }

/-! ## Helper lemmas -/

theorem vote_target_some_bounds (g b s d t : ℕ)
    (h : vote_target g (some b) s d = some t) : b < t ∧ t ≤ g := by
  have hp := nextPow2_pos (min (g - b + 1) u32max / 2)
  unfold vote_target at h
  dsimp only at h
  split_ifs at h <;> first
    | exact Option.noConfusion h
    | (injection h with h'; omega)

theorem prune_sessions_eq (o : VoterOracle) :
    (o.try_prune).sessions =
      if 1 < o.sessions.length then o.sessions.filter (fun s => !s.mandatory_done)
      else o.sessions := by
  unfold VoterOracle.try_prune
  split <;> rfl

theorem legal_filter_not_done (l : List Rounds) :
    legal_session_queue (l.filter (fun s => !s.mandatory_done)) := by
  by_cases h : l.filter (fun s => !s.mandatory_done) = []
  · exact Or.inl h
  · refine Or.inr (Or.inr ⟨?_, ?_⟩)
    · have := List.length_pos.mpr h
      omega
    · rw [List.all_eq_true]
      intro s hs
      exact (List.mem_filter.mp hs).2

theorem legal_prune_list (l : List Rounds) :
    legal_session_queue
      (if 1 < l.length then l.filter (fun s => !s.mandatory_done) else l) := by
  split
  · exact legal_filter_not_done l
  · cases l with
    | nil => exact Or.inl rfl
    | cons a t =>
        cases t with
        | nil =>
            cases hm : a.mandatory_done
            · exact Or.inr (Or.inr ⟨by simp, by simp [hm]⟩)
            · exact Or.inr (Or.inl ⟨rfl, by simp [hm]⟩)
        | cons b t2 => simp at *

/-! ## Claims -/

/-- Claim C1 (amended): `vote_target(g, best_beefy, s, d)` computes a
candidate — `s` when `best_beefy` is absent or below `s`, else
`b + max(d, next_power_of_two(((g −. b) + 1 clamped to u32::MAX) / 2))`,
the clamp coming from the code's `saturated_into::<u32>()` — and returns
`Some(candidate)` iff `candidate ≤ g`, else `None`. -/
theorem C1_vote_target_characterization (g : ℕ) (bb : Option ℕ) (s d : ℕ) :
    vote_target g bb s d =
      (let candidate :=
        match bb with
        | none => s
        | some b =>
          if b < s then s else b + max d (nextPow2 (min (g - b + 1) u32max / 2))
       if candidate ≤ g then some candidate else none) := by
  unfold vote_target
  cases bb <;> dsimp only <;> split_ifs <;> first | rfl | omega

/-- Claim C1 is false as stated: at `g = 2^33`, `best_beefy = Some 1`,
`s = 0`, `d = 1` the code clamps the difference into `u32` before halving
and returns `Some (2^31 + 1)`, while the claimed unclamped formula yields
the candidate `2^32 + 1 ≤ g`, so the claim demands `Some (2^32 + 1)`. -/
theorem C1_counterexample :
    vote_target (2 ^ 33) (some 1) 0 1 = some (2 ^ 31 + 1) ∧
    1 + max 1 (nextPow2 ((2 ^ 33 - 1 + 1) / 2)) = 2 ^ 32 + 1 ∧
    2 ^ 32 + 1 ≤ 2 ^ 33 ∧
    vote_target (2 ^ 33) (some 1) 0 1 ≠
      some (1 + max 1 (nextPow2 ((2 ^ 33 - 1 + 1) / 2))) := by
  refine ⟨by decide, by decide, by decide, by decide⟩

/-- Claim C6 (amended): for `b ≥ s`, whenever
`next_power_of_two(((g −. b) + 1 clamped to u32::MAX) / 2) ≤ d` the step
used by `vote_target` equals `d`, i.e. the target is `b + d` when
`b + d ≤ g` (and `None` otherwise).  The original hypothesis
`((g − b) + 1) / 2 ≤ d` does not suffice because the code rounds the
halved difference up to a power of two before comparing with `d`. -/
theorem C6_min_delta_step (g b s d : ℕ) (hs : s ≤ b)
    (hd : nextPow2 (min (g - b + 1) u32max / 2) ≤ d) :
    vote_target g (some b) s d = if b + d ≤ g then some (b + d) else none := by
  unfold vote_target
  dsimp only
  rw [if_neg (Nat.not_lt.mpr hs), Nat.max_eq_left hd]
  split_ifs <;> first | rfl | omega

/-- Witness for C6 at `g = 19`, `b = 10`, `s = 1`, `d = 8`. -/
theorem C6_min_delta_step_witness :
    (1 : ℕ) ≤ 10 ∧ nextPow2 (min (19 - 10 + 1) u32max / 2) ≤ 8 ∧
    vote_target 19 (some 10) 1 8 = if 10 + 8 ≤ 19 then some (10 + 8) else none :=
  ⟨by decide, by decide, C6_min_delta_step 19 10 1 8 (by decide) (by decide)⟩

/-- Claim C6 is false as stated: at `g = 19`, `b = 10`, `s = 1`, `d = 5`
the hypothesis `((g − b) + 1) / 2 = 5 ≤ d` holds and `b + d = 15 ≤ g`,
yet the code's step is `next_power_of_two(5) = 8 > d` and it returns
`Some 18`, not `Some 15`. -/
theorem C6_counterexample :
    (1 : ℕ) ≤ 10 ∧ ((19 - 10) + 1) / 2 ≤ 5 ∧ 10 + 5 ≤ 19 ∧
    vote_target 19 (some 10) 1 5 = some 18 ∧
    vote_target 19 (some 10) 1 5 ≠ some (10 + 5) := by
  refine ⟨by decide, by decide, by decide, by decide, by decide⟩

/-- Claim C7: with a head session whose `session_start ≤ n`, voting with
`best_beefy = Some n` at `best_base = n` yields no target; and in general a
returned target for `best_beefy = Some b` satisfies `b < target ≤ g`. -/
theorem C7_target_beyond_beefy :
    (∀ (o : VoterOracle) (r : Rounds) (n : ℕ),
      o.sessions.head? = some r → r.session_start ≤ n →
      o.voting_target (some n) n = none) ∧
    (∀ (g b s d t : ℕ), vote_target g (some b) s d = some t → b < t ∧ t ≤ g) := by
  constructor
  · intro o r n hhead hsn
    unfold VoterOracle.voting_target
    rw [hhead]
    dsimp only
    cases hv : vote_target n (some n) r.session_start o.min_block_delta with
    | none => rfl
    | some t =>
        have := vote_target_some_bounds n n r.session_start o.min_block_delta t hv
        omega
  · exact vote_target_some_bounds

/-- Witness for C7: a session started at 3, `best_beefy = best_base = 5`
gives no target; and `vote_target 9 (Some 4) 1 4 = Some 8` with
`4 < 8 ≤ 9`. -/
theorem C7_target_beyond_beefy_witness :
    (VoterOracle.mk [Rounds.mk 3 (ValidatorSet.mk [] 0) false] 1).sessions.head? =
      some (Rounds.mk 3 (ValidatorSet.mk [] 0) false) ∧
    (3 : ℕ) ≤ 5 ∧
    (VoterOracle.mk [Rounds.mk 3 (ValidatorSet.mk [] 0) false] 1).voting_target
      (some 5) 5 = none ∧
    vote_target 9 (some 4) 1 4 = some 8 ∧ (4 < 8 ∧ 8 ≤ 9) :=
  ⟨rfl, by decide,
    C7_target_beyond_beefy.1 _ _ 5 rfl (by decide),
    by decide,
    C7_target_beyond_beefy.2 9 4 1 4 8 (by decide)⟩

/-- Claim C2: `accepted_interval(best_base)` fails with `UninitSession` iff
the session queue is empty; otherwise it is `(session_start, best_base)`
when the head session's mandatory is done, and
`(session_start, session_start)` when it is not. -/
theorem C2_accepted_interval (o : VoterOracle) (g : ℕ) :
    (o.accepted_interval g = .error .UninitSession ↔ o.sessions = []) ∧
    o.accepted_interval g =
      (match o.sessions with
       | [] => .error .UninitSession
       | r :: _ =>
         .ok (if r.mandatory_done then (r.session_start, g)
              else (r.session_start, r.session_start))) := by
  cases hs : o.sessions with
  | nil => simp [VoterOracle.accepted_interval, hs]
  | cons r rest =>
      constructor
      · simp [VoterOracle.accepted_interval, hs]
        split <;> simp
      · simp [VoterOracle.accepted_interval, hs]
        split <;> simp

/-- Claim C3 (amended): with an empty queue `triage_round` fails with
`UninitSession`; with `(lo, hi) = accepted_interval(best_base)` it returns
`Process` iff `lo ≤ r ≤ hi`, `Enqueue` iff `r > hi`, and `Drop` iff
`r < lo` and `r ≤ hi` (when `hi < lo`, rounds in the gap are enqueued,
not dropped, because the `r > hi` test is made first). -/
theorem C3_triage_round (o : VoterOracle) (r g : ℕ) :
    (o.sessions = [] → o.triage_round r g = .error .UninitSession) ∧
    (∀ lo hi, o.accepted_interval g = .ok (lo, hi) →
      ((o.triage_round r g = .ok .Process ↔ (lo ≤ r ∧ r ≤ hi)) ∧
       (o.triage_round r g = .ok .Enqueue ↔ hi < r) ∧
       (o.triage_round r g = .ok .Drop ↔ (r < lo ∧ r ≤ hi)))) := by
  constructor
  · intro he
    unfold VoterOracle.triage_round
    simp [VoterOracle.accepted_interval, he]
  · intro lo hi h
    unfold VoterOracle.triage_round
    rw [h]
    dsimp only
    split_ifs with h1 h2 <;> refine ⟨?_, ?_, ?_⟩ <;> simp <;> omega

/-- Witness for C3 with a mandatory-done session started at 3 and
`best_base = 10`, triaging round 5. -/
theorem C3_triage_round_witness :
    (VoterOracle.mk [Rounds.mk 3 (ValidatorSet.mk [] 0) true] 1).accepted_interval 10 =
      .ok (3, 10) ∧
    (((VoterOracle.mk [Rounds.mk 3 (ValidatorSet.mk [] 0) true] 1).triage_round 5 10 =
        .ok .Process ↔ (3 ≤ 5 ∧ 5 ≤ 10)) ∧
     ((VoterOracle.mk [Rounds.mk 3 (ValidatorSet.mk [] 0) true] 1).triage_round 5 10 =
        .ok .Enqueue ↔ 10 < 5) ∧
     ((VoterOracle.mk [Rounds.mk 3 (ValidatorSet.mk [] 0) true] 1).triage_round 5 10 =
        .ok .Drop ↔ (5 < 3 ∧ 5 ≤ 10))) :=
  ⟨by decide,
    (C3_triage_round (VoterOracle.mk [Rounds.mk 3 (ValidatorSet.mk [] 0) true] 1) 5 10).2
      3 10 (by decide)⟩

/-- Claim C3 is false as stated: with one session started at 10 whose
mandatory is done and `best_base = 5`, the accepted interval is the
inverted `(10, 5)`; round 7 satisfies `r < lo` yet the code returns
`Enqueue` (since `r > hi` is tested first), not `Drop`. -/
theorem C3_counterexample :
    (VoterOracle.mk [Rounds.mk 10 (ValidatorSet.mk [] 0) true] 1).accepted_interval 5 =
      .ok (10, 5) ∧
    (7 : ℕ) < 10 ∧
    (VoterOracle.mk [Rounds.mk 10 (ValidatorSet.mk [] 0) true] 1).triage_round 7 5 =
      .ok .Enqueue ∧
    (VoterOracle.mk [Rounds.mk 10 (ValidatorSet.mk [] 0) true] 1).triage_round 7 5 ≠
      .ok .Drop := by
  refine ⟨by decide, by decide, by decide, by decide⟩

/-- Claim C4: after `try_prune` and after `add_session` the session queue is
in one of the three legal shapes, and stays ordered oldest-first provided
it was ordered and the added session is at least as new as the queued ones;
moreover `try_prune` on a queue of more than one session keeps exactly the
sessions with `mandatory_done = false`, and `add_session` appends to the
tail and then prunes. -/
theorem C4_oracle_shapes (o : VoterOracle) (r : Rounds)
    (hord : sessions_ordered o.sessions)
    (hnew : ∀ s ∈ o.sessions, s.session_start ≤ r.session_start) :
    legal_session_queue (o.try_prune).sessions ∧
    sessions_ordered (o.try_prune).sessions ∧
    legal_session_queue (o.add_session r).sessions ∧
    sessions_ordered (o.add_session r).sessions ∧
    (o.sessions.length ≤ 1 ∨
      (o.try_prune).sessions = o.sessions.filter (fun s => !s.mandatory_done)) ∧
    (o.add_session r).sessions =
      (VoterOracle.try_prune
        { sessions := o.sessions ++ [r], min_block_delta := o.min_block_delta }).sessions := by
  have hordapp : sessions_ordered (o.sessions ++ [r]) := by
    unfold sessions_ordered at *
    rw [List.pairwise_append]
    exact ⟨hord, List.pairwise_singleton _ _, fun a ha b hb => by
      rw [List.mem_singleton.mp hb]; exact hnew a ha⟩
  refine ⟨?_, ?_, ?_, ?_, ?_, rfl⟩
  · rw [prune_sessions_eq]
    exact legal_prune_list o.sessions
  · rw [prune_sessions_eq]
    unfold sessions_ordered at *
    split
    · exact List.Pairwise.sublist (List.filter_sublist _) hord
    · exact hord
  · show legal_session_queue (VoterOracle.try_prune _).sessions
    rw [prune_sessions_eq]
    exact legal_prune_list _
  · show sessions_ordered (VoterOracle.try_prune _).sessions
    rw [prune_sessions_eq]
    unfold sessions_ordered at *
    split
    · exact List.Pairwise.sublist (List.filter_sublist _) hordapp
    · exact hordapp
  · by_cases hl : 1 < o.sessions.length
    · right
      rw [prune_sessions_eq, if_pos hl]
    · left
      omega

/-- Witness for C4: two lagging sessions at 1 and 5, adding one at 9. -/
theorem C4_oracle_shapes_witness :
    sessions_ordered
      [Rounds.mk 1 (ValidatorSet.mk [] 0) false, Rounds.mk 5 (ValidatorSet.mk [] 0) false] ∧
    legal_session_queue
      ((VoterOracle.mk
          [Rounds.mk 1 (ValidatorSet.mk [] 0) false, Rounds.mk 5 (ValidatorSet.mk [] 0) false]
          1).add_session (Rounds.mk 9 (ValidatorSet.mk [] 0) false)).sessions :=
  ⟨by decide,
    (C4_oracle_shapes
      (VoterOracle.mk
        [Rounds.mk 1 (ValidatorSet.mk [] 0) false, Rounds.mk 5 (ValidatorSet.mk [] 0) false] 1)
      (Rounds.mk 9 (ValidatorSet.mk [] 0) false)
      (by decide) (by decide)).2.2.1⟩

theorem finalize_components (ch : ℕ → Option ℕ) (w : BeefyWorker)
    (p : VersionedFinalityProof) :
    (w.finalize ch p).best_beefy_block =
      (if optGt (some p.block_number) w.best_beefy_block then some p.block_number
       else w.best_beefy_block) ∧
    (w.finalize ch p).to_rpc_justif_sender =
      (if optGt (some p.block_number) w.best_beefy_block then
        w.to_rpc_justif_sender ++ [p]
       else w.to_rpc_justif_sender) ∧
    (w.finalize ch p).to_rpc_best_block_sender =
      (if optGt (some p.block_number) w.best_beefy_block then
        (match ch p.block_number with
         | some hash => w.to_rpc_best_block_sender ++ [hash]
         | none => w.to_rpc_best_block_sender)
       else w.to_rpc_best_block_sender) ∧
    (w.finalize ch p).pending_votes = w.pending_votes ∧
    (w.finalize ch p).pending_justifications = w.pending_justifications ∧
    (w.finalize ch p).best_grandpa_block_header = w.best_grandpa_block_header := by
  unfold BeefyWorker.finalize
  cases hch : ch p.block_number <;> split_ifs with hgt <;> simp [hch, hgt]

theorem optLe_refl (a : Option ℕ) : optLe a a = true := by
  cases a <;> simp [optLe]

theorem optLe_trans (a b c : Option ℕ) :
    optLe a b = true → optLe b c = true → optLe a c = true := by
  intro h1 h2
  cases a with
  | none => rfl
  | some x =>
      cases b with
      | none => simp [optLe] at h1
      | some y =>
          cases c with
          | none => simp [optLe] at h2
          | some z =>
              simp [optLe] at h1 h2 ⊢
              omega

theorem finalize_best_mono (ch : ℕ → Option ℕ) (w : BeefyWorker)
    (p : VersionedFinalityProof) :
    optLe w.best_beefy_block (w.finalize ch p).best_beefy_block = true := by
  rw [(finalize_components ch w p).1]
  split_ifs with h
  · cases hb : w.best_beefy_block with
    | none => rfl
    | some b =>
        rw [hb] at h
        simp [optGt] at h
        simp [optLe]
        omega
  · exact optLe_refl _

theorem finalize_fold_mono (ch : ℕ → Option ℕ) :
    ∀ (ps : List VersionedFinalityProof) (w : BeefyWorker),
      optLe w.best_beefy_block
        ((ps.foldl (fun wa q => wa.finalize ch q) w).best_beefy_block) = true := by
  intro ps
  induction ps with
  | nil => intro w; exact optLe_refl _
  | cons q t ih =>
      intro w
      rw [List.foldl_cons]
      exact optLe_trans _ _ _ (finalize_best_mono ch w q) (ih _)

/-- Claim C5: `finalize` with a proof for block `n` sets
`best_beefy_block = Some n` and emits the proof on the justification sink
exactly when `best_beefy_block` is unset or `n` is strictly greater
(emitting the block hash on the best-block sink too, when the client knows
it); otherwise it leaves `best_beefy_block` and both sinks unchanged.
Hence `best_beefy_block` is non-decreasing across any sequence of
`finalize` calls. -/
theorem C5_finalize (ch : ℕ → Option ℕ) (w : BeefyWorker) (p : VersionedFinalityProof) :
    (w.finalize ch p).best_beefy_block =
      (if optGt (some p.block_number) w.best_beefy_block then some p.block_number
       else w.best_beefy_block) ∧
    (w.finalize ch p).to_rpc_justif_sender =
      (if optGt (some p.block_number) w.best_beefy_block then
        w.to_rpc_justif_sender ++ [p]
       else w.to_rpc_justif_sender) ∧
    (w.finalize ch p).to_rpc_best_block_sender =
      (if optGt (some p.block_number) w.best_beefy_block then
        (match ch p.block_number with
         | some hash => w.to_rpc_best_block_sender ++ [hash]
         | none => w.to_rpc_best_block_sender)
       else w.to_rpc_best_block_sender) ∧
    (optGt (some p.block_number) w.best_beefy_block = true ↔
      (w.best_beefy_block = none ∨
        ∃ b, w.best_beefy_block = some b ∧ b < p.block_number)) ∧
    optLe w.best_beefy_block (w.finalize ch p).best_beefy_block = true ∧
    (∀ ps : List VersionedFinalityProof,
      optLe w.best_beefy_block
        ((ps.foldl (fun wa q => wa.finalize ch q) w).best_beefy_block) = true) := by
  refine ⟨(finalize_components ch w p).1, (finalize_components ch w p).2.1,
    (finalize_components ch w p).2.2.1, ?_, finalize_best_mono ch w p, ?_⟩
  · cases hb : w.best_beefy_block with
    | none => simp [optGt]
    | some b => simp [optGt]
  · intro ps
    exact finalize_fold_mono ch ps w

theorem to_process_for_eq {α : Type} (pending : List (ℕ × List α)) (start stop : ℕ) :
    to_process_for pending start stop =
      (pending.filter (fun e => start ≤ e.1 ∧ e.1 ≤ stop),
       pending.filter (fun e => stop < e.1)) := by
  unfold to_process_for
  simp only [List.partition_eq_filter_filter]
  rw [Prod.mk.injEq]
  constructor
  · rw [List.filter_filter]
    apply List.filter_congr
    intro a ha
    by_cases h1 : start ≤ a.1 <;> by_cases h2 : a.1 ≤ stop <;>
      simp [h1, h2, Function.comp] <;> omega
  · apply List.filter_congr
    intro a ha
    by_cases h : stop < a.1 <;> simp [h] <;> omega

theorem foldl_proj_eq {α β : Type} (proj : BeefyWorker → β)
    (f : BeefyWorker → α → BeefyWorker) (hf : ∀ w a, proj (f w a) = proj w) :
    ∀ (l : List α) (w : BeefyWorker), proj (l.foldl f w) = proj w := by
  intro l
  induction l with
  | nil => intro w; rfl
  | cons a t ih => intro w; rw [List.foldl_cons, ih, hf]

theorem foldl_entries_proj_eq {α β : Type} (proj : BeefyWorker → β)
    (f : BeefyWorker → α → BeefyWorker) (hf : ∀ w a, proj (f w a) = proj w) :
    ∀ (l : List (ℕ × List α)) (w : BeefyWorker),
      proj (l.foldl (fun wa e => e.2.foldl f wa) w) = proj w :=
  foldl_proj_eq proj _ (fun w e => foldl_proj_eq proj f hf e.2 w)

theorem handle_pending_justifs_eq (ch : ℕ → Option ℕ) (w : BeefyWorker)
    (interval : ℕ × ℕ) :
    handle_pending_justifs ch w interval =
      (w.pending_justifications.filter
          (fun e => interval.1 ≤ e.1 ∧ e.1 ≤ interval.2)).foldl
        (fun wa e => e.2.foldl (fun wb j => wb.finalize ch j) wa)
        { w with pending_justifications :=
            w.pending_justifications.filter (fun e => interval.2 < e.1) } := by
  unfold handle_pending_justifs
  split_ifs with hemp
  · have hnil : w.pending_justifications = [] := by
      cases hl : w.pending_justifications
      · rfl
      · rw [hl] at hemp; simp [List.isEmpty] at hemp
    rw [hnil]
    simp only [List.filter_nil, List.foldl_nil]
    cases w
    simp_all
  · rw [to_process_for_eq]

theorem handle_pending_votes_eq (hv : BeefyWorker → VoteMessage → BeefyWorker)
    (w : BeefyWorker) (interval : ℕ × ℕ) :
    handle_pending_votes hv w interval =
      (w.pending_votes.filter (fun e => interval.1 ≤ e.1 ∧ e.1 ≤ interval.2)).foldl
        (fun wa e => e.2.foldl (fun wb v => hv wb v) wa)
        { w with pending_votes :=
            w.pending_votes.filter (fun e => interval.2 < e.1) } := by
  unfold handle_pending_votes
  split_ifs with hemp
  · have hnil : w.pending_votes = [] := by
      cases hl : w.pending_votes
      · rfl
      · rw [hl] at hemp; simp [List.isEmpty] at hemp
    rw [hnil]
    simp only [List.filter_nil, List.foldl_nil]
    cases w
    simp_all
  · rw [to_process_for_eq]

/-- Claim C8: a drain pass splits each pending buffer at the accepted
interval `(lo, hi)` — entries below `lo` are dropped, entries in
`[lo, hi]` are handled in ascending key order, entries above `hi` stay
buffered — with justifications handled before votes, and the accepted
interval re-read from the oracle between the two passes. -/
theorem C8_pending_drain (ch : ℕ → Option ℕ)
    (hv : BeefyWorker → VoteMessage → BeefyWorker) (w : BeefyWorker)
    (lo hi lo2 hi2 : ℕ)
    (hjkeys : List.Pairwise (fun a b => a.1 < b.1) w.pending_justifications)
    (hvkeys : List.Pairwise (fun a b => a.1 < b.1) w.pending_votes)
    (hhv : ∀ w' v, (hv w' v).pending_votes = w'.pending_votes ∧
        (hv w' v).pending_justifications = w'.pending_justifications)
    (h1 : w.voting_oracle.accepted_interval w.best_grandpa_block_header.number =
        .ok (lo, hi))
    (h2 : (handle_pending_justifs ch w (lo, hi)).voting_oracle.accepted_interval
        w.best_grandpa_block_header.number = .ok (lo2, hi2)) :
    try_pending_justif_and_votes ch hv w =
      .ok (handle_pending_votes hv (handle_pending_justifs ch w (lo, hi)) (lo2, hi2)) ∧
    handle_pending_justifs ch w (lo, hi) =
      (w.pending_justifications.filter (fun e => lo ≤ e.1 ∧ e.1 ≤ hi)).foldl
        (fun wa e => e.2.foldl (fun wb j => wb.finalize ch j) wa)
        { w with pending_justifications :=
            w.pending_justifications.filter (fun e => hi < e.1) } ∧
    (handle_pending_justifs ch w (lo, hi)).pending_justifications =
      w.pending_justifications.filter (fun e => hi < e.1) ∧
    (handle_pending_justifs ch w (lo, hi)).pending_votes = w.pending_votes ∧
    handle_pending_votes hv (handle_pending_justifs ch w (lo, hi)) (lo2, hi2) =
      ((handle_pending_justifs ch w (lo, hi)).pending_votes.filter
          (fun e => lo2 ≤ e.1 ∧ e.1 ≤ hi2)).foldl
        (fun wa e => e.2.foldl (fun wb v => hv wb v) wa)
        { handle_pending_justifs ch w (lo, hi) with
            pending_votes := (handle_pending_justifs ch w (lo, hi)).pending_votes.filter
              (fun e => hi2 < e.1) } ∧
    (handle_pending_votes hv (handle_pending_justifs ch w (lo, hi))
        (lo2, hi2)).pending_votes = w.pending_votes.filter (fun e => hi2 < e.1) ∧
    (handle_pending_votes hv (handle_pending_justifs ch w (lo, hi))
        (lo2, hi2)).pending_justifications =
      w.pending_justifications.filter (fun e => hi < e.1) ∧
    List.Pairwise (fun a b => a.1 < b.1)
      (w.pending_justifications.filter (fun e => lo ≤ e.1 ∧ e.1 ≤ hi)) ∧
    List.Pairwise (fun a b => a.1 < b.1)
      (w.pending_votes.filter (fun e => lo2 ≤ e.1 ∧ e.1 ≤ hi2)) := by
  have hjust_buf : (handle_pending_justifs ch w (lo, hi)).pending_justifications =
      w.pending_justifications.filter (fun e => hi < e.1) := by
    rw [handle_pending_justifs_eq]
    rw [foldl_entries_proj_eq (fun x => x.pending_justifications)
      (fun wb j => wb.finalize ch j)
      (fun w' j => (finalize_components ch w' j).2.2.2.2.1)]
  have hjust_votes : (handle_pending_justifs ch w (lo, hi)).pending_votes =
      w.pending_votes := by
    rw [handle_pending_justifs_eq]
    rw [foldl_entries_proj_eq (fun x => x.pending_votes)
      (fun wb j => wb.finalize ch j)
      (fun w' j => (finalize_components ch w' j).2.2.2.1)]
  have hvotes_buf : (handle_pending_votes hv (handle_pending_justifs ch w (lo, hi))
      (lo2, hi2)).pending_votes =
      (handle_pending_justifs ch w (lo, hi)).pending_votes.filter
        (fun e => hi2 < e.1) := by
    rw [handle_pending_votes_eq]
    rw [foldl_entries_proj_eq (fun x => x.pending_votes)
      (fun wb v => hv wb v) (fun w' v => (hhv w' v).1)]
  have hvotes_justifs : (handle_pending_votes hv (handle_pending_justifs ch w (lo, hi))
      (lo2, hi2)).pending_justifications =
      (handle_pending_justifs ch w (lo, hi)).pending_justifications := by
    rw [handle_pending_votes_eq]
    rw [foldl_entries_proj_eq (fun x => x.pending_justifications)
      (fun wb v => hv wb v) (fun w' v => (hhv w' v).2)]
  refine ⟨?_, handle_pending_justifs_eq ch w (lo, hi), hjust_buf, hjust_votes,
    handle_pending_votes_eq hv _ (lo2, hi2), ?_, ?_, ?_, ?_⟩
  · simp only [try_pending_justif_and_votes, h1, h2]
  · rw [hvotes_buf, hjust_votes]
  · rw [hvotes_justifs, hjust_buf]
  · exact List.Pairwise.filter _ hjkeys
  · exact List.Pairwise.filter _ hvkeys

/-- Witness for C8 on `sample_worker`: interval `(3, 6)` both before and
after the justification pass; the justification at 5 is handled, 1 is
dropped, 9 is retained; votes 4 is handled, 2 dropped, 8 retained. -/
theorem C8_pending_drain_witness :
    List.Pairwise (fun a b => a.1 < b.1) sample_worker.pending_justifications ∧
    List.Pairwise (fun a b => a.1 < b.1) sample_worker.pending_votes ∧
    sample_worker.voting_oracle.accepted_interval
      sample_worker.best_grandpa_block_header.number = .ok (3, 6) ∧
    (handle_pending_justifs sample_client_hash sample_worker
        (3, 6)).voting_oracle.accepted_interval
      sample_worker.best_grandpa_block_header.number = .ok (3, 6) ∧
    try_pending_justif_and_votes sample_client_hash sample_vote_handler sample_worker =
      .ok (handle_pending_votes sample_vote_handler
        (handle_pending_justifs sample_client_hash sample_worker (3, 6)) (3, 6)) ∧
    (handle_pending_justifs sample_client_hash sample_worker
        (3, 6)).pending_justifications =
      sample_worker.pending_justifications.filter (fun e => 6 < e.1) ∧
    (handle_pending_votes sample_vote_handler
        (handle_pending_justifs sample_client_hash sample_worker (3, 6))
        (3, 6)).pending_votes =
      sample_worker.pending_votes.filter (fun e => 6 < e.1) := by
  refine ⟨by decide, by decide, by decide, by decide, ?_, ?_, ?_⟩
  · exact (C8_pending_drain sample_client_hash sample_vote_handler sample_worker 3 6 3 6
      (by decide) (by decide) (fun w' v => ⟨rfl, rfl⟩) (by decide) (by decide)).1
  · exact (C8_pending_drain sample_client_hash sample_vote_handler sample_worker 3 6 3 6
      (by decide) (by decide) (fun w' v => ⟨rfl, rfl⟩) (by decide) (by decide)).2.2.1
  · exact (C8_pending_drain sample_client_hash sample_vote_handler sample_worker 3 6 3 6
      (by decide) (by decide) (fun w' v => ⟨rfl, rfl⟩) (by decide) (by decide)).2.2.2.2.2.1

theorem add_session_getLast (o : VoterOracle) (r : Rounds)
    (hr : r.mandatory_done = false) :
    (o.add_session r).sessions.getLast? = some r := by
  show (VoterOracle.try_prune _).sessions.getLast? = some r
  rw [prune_sessions_eq]
  split
  · rw [List.filter_append]
    have hfr : List.filter (fun s => !s.mandatory_done) [r] = [r] := by simp [hr]
    rw [hfr, List.getLast?_concat]
  · exact List.getLast?_concat _

/-- Claim C9: a base-finality notification changes worker state only when
the header is strictly newer than the stored best; then the best header is
updated (so its number never decreases) and, exactly when the header
carries an authorities-change consensus digest, a session starting at that
header's number with the announced validator set is added at the tail of
the oracle queue. -/
theorem C9_handle_finality_notification (w : BeefyWorker) (h : Header) :
    (h.number ≤ w.best_grandpa_block_header.number →
      w.handle_finality_notification h = w) ∧
    (w.best_grandpa_block_header.number < h.number →
      (w.handle_finality_notification h).best_grandpa_block_header = h ∧
      (∀ vs, find_authorities_change h = some vs →
        (w.handle_finality_notification h).voting_oracle =
          w.voting_oracle.add_session (Rounds.new h.number vs) ∧
        (w.handle_finality_notification h).voting_oracle.sessions.getLast? =
          some (Rounds.new h.number vs)) ∧
      (find_authorities_change h = none →
        (w.handle_finality_notification h).voting_oracle = w.voting_oracle)) ∧
    w.best_grandpa_block_header.number ≤
      (w.handle_finality_notification h).best_grandpa_block_header.number := by
  by_cases hlt : w.best_grandpa_block_header.number < h.number
  · have hfe : ∀ P : Prop, (h.number ≤ w.best_grandpa_block_header.number → P) := by
      intro P hc; omega
    refine ⟨hfe _, fun _ => ?_, ?_⟩
    · unfold BeefyWorker.handle_finality_notification BeefyWorker.init_session_at
      rw [if_pos hlt]
      cases hf : find_authorities_change h with
      | none =>
          exact ⟨rfl, fun vs hvs => Option.noConfusion hvs, fun _ => rfl⟩
      | some vs0 =>
          refine ⟨rfl, fun vs hvs => ?_, fun hn => Option.noConfusion hn⟩
          injection hvs with hvs'
          subst hvs'
          exact ⟨rfl, add_session_getLast _ _ rfl⟩
    · unfold BeefyWorker.handle_finality_notification BeefyWorker.init_session_at
      rw [if_pos hlt]
      cases hf : find_authorities_change h <;> dsimp only <;> omega
  · have heq : w.handle_finality_notification h = w := by
      unfold BeefyWorker.handle_finality_notification
      rw [if_neg hlt]
    refine ⟨fun _ => heq, fun hc => absurd hc hlt, ?_⟩
    rw [heq]

/-- Witness for C9: a fresh worker at base 1 receiving the
authorities-change header at 5. -/
theorem C9_handle_finality_notification_witness :
    sample_fresh_worker.best_grandpa_block_header.number < sample_change_header.number ∧
    find_authorities_change sample_change_header = some sample_validator_set ∧
    (sample_fresh_worker.handle_finality_notification
        sample_change_header).best_grandpa_block_header = sample_change_header ∧
    (sample_fresh_worker.handle_finality_notification sample_change_header).voting_oracle =
      sample_fresh_worker.voting_oracle.add_session
        (Rounds.new sample_change_header.number sample_validator_set) ∧
    (sample_fresh_worker.handle_finality_notification
        sample_change_header).voting_oracle.sessions.getLast? =
      some (Rounds.new sample_change_header.number sample_validator_set) ∧
    sample_fresh_worker.best_grandpa_block_header.number ≤
      (sample_fresh_worker.handle_finality_notification
        sample_change_header).best_grandpa_block_header.number := by
  refine ⟨by decide, by decide, ?_, ?_, ?_, ?_⟩
  · exact ((C9_handle_finality_notification sample_fresh_worker sample_change_header).2.1
      (by decide)).1
  · exact (((C9_handle_finality_notification sample_fresh_worker sample_change_header).2.1
      (by decide)).2.1 sample_validator_set (by decide)).1
  · exact (((C9_handle_finality_notification sample_fresh_worker sample_change_header).2.1
      (by decide)).2.1 sample_validator_set (by decide)).2
  · exact (C9_handle_finality_notification sample_fresh_worker sample_change_header).2.2

theorem convert_first_eq_head (f : DigestItem → Option ℕ) :
    ∀ l : List DigestItem, convert_first f l = (l.filterMap f).head? := by
  intro l
  induction l with
  | nil => rfl
  | cons item rest ih =>
      cases hf : f item <;> simp [convert_first, List.filterMap_cons, hf, ih]

theorem convert_first_eq_head_vs (f : DigestItem → Option ValidatorSet) :
    ∀ l : List DigestItem, convert_first f l = (l.filterMap f).head? := by
  intro l
  induction l with
  | nil => rfl
  | cons item rest ih =>
      cases hf : f item <;> simp [convert_first, List.filterMap_cons, hf, ih]

/-- Claim C10: `find_mmr_root_digest` (resp. `find_authorities_change`)
returns the value of the first BEEFY consensus digest entry of the
`MmrRoot` (resp. `AuthoritiesChange`) variant and `None` when no such
entry exists; a header carrying such an entry after any prefix with no
matching entry round-trips, the extractor returning the embedded value. -/
theorem C10_digest_extractors (h : Header) (root : ℕ) (vs : ValidatorSet) :
    find_mmr_root_digest h =
      (h.digest.filterMap
        (fun l => (digest_try_to_beefy l).bind mmr_root_filter)).head? ∧
    find_authorities_change h =
      (h.digest.filterMap
        (fun l => (digest_try_to_beefy l).bind authorities_change_filter)).head? ∧
    (h.digest.filterMap (fun l => (digest_try_to_beefy l).bind mmr_root_filter) = [] →
      find_mmr_root_digest
        { h with digest := h.digest ++
            [DigestItem.Consensus BEEFY_ENGINE_ID (some (ConsensusLog.MmrRoot root))] } =
        some root) ∧
    (h.digest.filterMap
        (fun l => (digest_try_to_beefy l).bind authorities_change_filter) = [] →
      find_authorities_change
        { h with digest := h.digest ++
            [DigestItem.Consensus BEEFY_ENGINE_ID
              (some (ConsensusLog.AuthoritiesChange vs))] } =
        some vs) := by
  refine ⟨convert_first_eq_head _ h.digest, convert_first_eq_head_vs _ h.digest, ?_, ?_⟩
  · intro hempty
    unfold find_mmr_root_digest
    rw [convert_first_eq_head]
    dsimp only
    rw [List.filterMap_append, hempty]
    rfl
  · intro hempty
    unfold find_authorities_change
    rw [convert_first_eq_head_vs]
    dsimp only
    rw [List.filterMap_append, hempty]
    rfl

/-- Witness for C10 on a header with no decodable BEEFY entry, embedding
an MMR root 77 and `sample_validator_set`. -/
theorem C10_digest_extractors_witness :
    sample_plain_header.digest.filterMap
      (fun l => (digest_try_to_beefy l).bind mmr_root_filter) = [] ∧
    sample_plain_header.digest.filterMap
      (fun l => (digest_try_to_beefy l).bind authorities_change_filter) = [] ∧
    find_mmr_root_digest
      { sample_plain_header with digest := sample_plain_header.digest ++
          [DigestItem.Consensus BEEFY_ENGINE_ID (some (ConsensusLog.MmrRoot 77))] } =
      some 77 ∧
    find_authorities_change
      { sample_plain_header with digest := sample_plain_header.digest ++
          [DigestItem.Consensus BEEFY_ENGINE_ID
            (some (ConsensusLog.AuthoritiesChange sample_validator_set))] } =
      some sample_validator_set := by
  refine ⟨by decide, by decide, ?_, ?_⟩
  · exact (C10_digest_extractors sample_plain_header 77 sample_validator_set).2.2.1
      (by decide)
  · exact (C10_digest_extractors sample_plain_header 77 sample_validator_set).2.2.2
      (by decide)
